import Mathlib

/-!
Verification development for the `handeye_calib_camodocal` node
(`src/handeye_calibration.cpp`).

The embedding is a shallow model over exact rationals (`ℚ`):

* `Vec3`, `Mat3`, `Affine3` model `Eigen::Vector3d`, the 3×3 linear
  block, and `Eigen::Affine3d` (which stores a full 4×4 matrix: linear
  block, translation column, and the bottom row).
* Floating-point transcendental functions (`std::sqrt`, `std::atan2`)
  have no exact rational counterpart, so every definition that needs
  them is parameterised over functions `sq : ℚ → ℚ` and
  `at2 : ℚ → ℚ → ℚ`; the theorems quantify over these parameters.
* The interactive node's global mutable buffers become the explicit
  record `NodeState`; the keyboard branches of `main` become state
  transformers on it.
* `cv::FileStorage` files become association lists from a key type to a
  value type; `std::vector::pop_back` on an empty vector (undefined
  behaviour) is modelled by `Option`, with `none` marking the undefined
  execution.
-/

namespace HandEye

/-- Model of `Eigen::Vector3d`: three exact rational coordinates. -/
structure Vec3 where
  x : ℚ
  y : ℚ
  z : ℚ
deriving DecidableEq

/-- Model of a 3×3 matrix of doubles (row-major entries `mIJ` = row `I`, column `J`). -/
structure Mat3 where
  m00 : ℚ
  m01 : ℚ
  m02 : ℚ
  m10 : ℚ
  m11 : ℚ
  m12 : ℚ
  m20 : ℚ
  m21 : ℚ
  m22 : ℚ
deriving DecidableEq

def vec3Zero : Vec3 := ⟨0, 0, 0⟩

def vecAdd (a b : Vec3) : Vec3 := ⟨a.x + b.x, a.y + b.y, a.z + b.z⟩

def vecNeg (a : Vec3) : Vec3 := ⟨-a.x, -a.y, -a.z⟩

/-- Scalar multiple of a vector (`ax3d.angle() * ax3d.axis()`). -/
def vecScale (c : ℚ) (v : Vec3) : Vec3 := ⟨c * v.x, c * v.y, c * v.z⟩

def mat3Id : Mat3 := ⟨1, 0, 0, 0, 1, 0, 0, 0, 1⟩

def mat3Mul (a b : Mat3) : Mat3 :=
  ⟨a.m00 * b.m00 + a.m01 * b.m10 + a.m02 * b.m20,
   a.m00 * b.m01 + a.m01 * b.m11 + a.m02 * b.m21,
   a.m00 * b.m02 + a.m01 * b.m12 + a.m02 * b.m22,
   a.m10 * b.m00 + a.m11 * b.m10 + a.m12 * b.m20,
   a.m10 * b.m01 + a.m11 * b.m11 + a.m12 * b.m21,
   a.m10 * b.m02 + a.m11 * b.m12 + a.m12 * b.m22,
   a.m20 * b.m00 + a.m21 * b.m10 + a.m22 * b.m20,
   a.m20 * b.m01 + a.m21 * b.m11 + a.m22 * b.m21,
   a.m20 * b.m02 + a.m21 * b.m12 + a.m22 * b.m22⟩

def mat3ApplyVec (m : Mat3) (v : Vec3) : Vec3 :=
  ⟨m.m00 * v.x + m.m01 * v.y + m.m02 * v.z,
   m.m10 * v.x + m.m11 * v.y + m.m12 * v.z,
   m.m20 * v.x + m.m21 * v.y + m.m22 * v.z⟩

def det3 (m : Mat3) : ℚ :=
  m.m00 * (m.m11 * m.m22 - m.m12 * m.m21)
    - m.m01 * (m.m10 * m.m22 - m.m12 * m.m20)
    + m.m02 * (m.m10 * m.m21 - m.m11 * m.m20)

/-- General 3×3 inverse (adjugate over determinant), as Eigen computes for the
linear block of an `Affine`-mode transform.  Rational division is total
(division by a zero determinant yields zeros), which is only ever exercised on
invertible inputs, exactly as in the source. -/
def inv3 (m : Mat3) : Mat3 :=
  let d := det3 m
  ⟨(m.m11 * m.m22 - m.m12 * m.m21) / d,
   (m.m02 * m.m21 - m.m01 * m.m22) / d,
   (m.m01 * m.m12 - m.m02 * m.m11) / d,
   (m.m12 * m.m20 - m.m10 * m.m22) / d,
   (m.m00 * m.m22 - m.m02 * m.m20) / d,
   (m.m02 * m.m10 - m.m00 * m.m12) / d,
   (m.m10 * m.m21 - m.m11 * m.m20) / d,
   (m.m01 * m.m20 - m.m00 * m.m21) / d,
   (m.m00 * m.m11 - m.m01 * m.m10) / d⟩

/-- Model of `Eigen::Affine3d` = `Transform<double,3,Affine>`: the stored 4×4
matrix, split as linear block `R`, translation column `t`, and the bottom row
`(b0 b1 b2 b3)` (which is `(0 0 0 1)` for every transform the node builds,
but is stored — and round-trips through files — like any other entry). -/
structure Affine3 where
  R : Mat3
  t : Vec3
  b0 : ℚ
  b1 : ℚ
  b2 : ℚ
  b3 : ℚ
deriving DecidableEq

def idAffine : Affine3 := ⟨mat3Id, vec3Zero, 0, 0, 0, 1⟩

/-- Product of two `Affine`-mode transforms: Eigen composes the affine parts
(assuming affine bottom rows) and the result's stored bottom row is affine. -/
def affineMul (a b : Affine3) : Affine3 :=
  ⟨mat3Mul a.R b.R, vecAdd (mat3ApplyVec a.R b.t) a.t, 0, 0, 0, 1⟩

/-- `Affine3d::inverse()` in `Affine` mode: invert the linear block, negate and
rotate the translation, bottom row affine. -/
def affineInv (a : Affine3) : Affine3 :=
  let Ri := inv3 a.R
  ⟨Ri, vecNeg (mat3ApplyVec Ri a.t), 0, 0, 0, 1⟩

/-- `Transform::rotation()`.  Eigen extracts the rotation factor of the linear
block by polar decomposition; on the rigid transforms this node manipulates
(orthonormal linear block, as the spec's validity invariant requires) that
factor is the linear block itself, which is how it is modelled here. -/
def rotation (a : Affine3) : Mat3 := a.R

/-- `Transform::translation()`: the translation column. -/
def translationOf (a : Affine3) : Vec3 := a.t

/-- Model of `Eigen::Quaterniond` coefficients. -/
structure Quat where
  w : ℚ
  x : ℚ
  y : ℚ
  z : ℚ
deriving DecidableEq

/-- Eigen's rotation-matrix → quaternion conversion
(`internal::quaternionbase_assign_impl`): the positive-trace branch, else the
largest-diagonal branch.  `sq` stands for `std::sqrt`. -/
def quatFromRotation (sq : ℚ → ℚ) (m : Mat3) : Quat :=
  let tr := m.m00 + m.m11 + m.m22
  if 0 < tr then
    let t := sq (tr + 1)
    let s := (1 / 2) / t
    ⟨(1 / 2) * t, (m.m21 - m.m12) * s, (m.m02 - m.m20) * s, (m.m10 - m.m01) * s⟩
  else
    let i : Nat := if m.m00 < m.m11 then 1 else 0
    let i : Nat := if (if i = 1 then m.m11 else m.m00) < m.m22 then 2 else i
    match i with
    | 0 =>
      let t := sq (m.m00 - m.m11 - m.m22 + 1)
      let s := (1 / 2) / t
      ⟨(m.m21 - m.m12) * s, (1 / 2) * t, (m.m10 + m.m01) * s, (m.m20 + m.m02) * s⟩
    | 1 =>
      let t := sq (m.m11 - m.m22 - m.m00 + 1)
      let s := (1 / 2) / t
      ⟨(m.m02 - m.m20) * s, (m.m01 + m.m10) * s, (1 / 2) * t, (m.m21 + m.m12) * s⟩
    | _ =>
      let t := sq (m.m22 - m.m00 - m.m11 + 1)
      let s := (1 / 2) / t
      ⟨(m.m10 - m.m01) * s, (m.m02 + m.m20) * s, (m.m12 + m.m21) * s, (1 / 2) * t⟩

/-- Eigen's quaternion → angle-axis conversion (`AngleAxis::operator=`):
`n` is the norm of the vector part (in exact arithmetic the `stableNorm`
re-computation coincides with `norm`); when `n = 0` the angle is `0` and the
axis is the conventional `(1,0,0)`, otherwise the angle is
`2*atan2(n, |w|)` and the axis is the vector part over `±n`.
Returns the pair (angle, axis). -/
def angleAxisFromQuat (sq : ℚ → ℚ) (at2 : ℚ → ℚ → ℚ) (q : Quat) : ℚ × Vec3 :=
  let n := sq (q.x ^ 2 + q.y ^ 2 + q.z ^ 2)
  if n = 0 then
    (0, ⟨1, 0, 0⟩)
  else
    let angle := 2 * at2 n (abs q.w)
    let nn := if q.w < 0 then -n else n
    (angle, ⟨q.x / nn, q.y / nn, q.z / nn⟩)

/-- The source's `eigenRotToEigenVector3dAngleAxis`: build
`Eigen::AngleAxisd` from the rotation (matrix → quaternion → angle-axis) and
return `angle * axis`. -/
def eigenRotToEigenVector3dAngleAxis (sq : ℚ → ℚ) (at2 : ℚ → ℚ → ℚ)
    (m : Mat3) : Vec3 :=
  let p := angleAxisFromQuat sq at2 (quatFromRotation sq m)
  vecScale p.1 p.2

/-- Claim C5: a relative motion whose rotation has zero angle (pure
translation) is processed without failure — `eigenRotToEigenVector3dAngleAxis`
applied to the identity rotation returns the zero 3-vector, for every choice
of the square-root and arctangent oracles (in particular, no division by zero
is ever needed to obtain the result, and the exact result rules out NaN). -/
theorem angleAxis_of_identity_is_zero (sq : ℚ → ℚ) (at2 : ℚ → ℚ → ℚ) :
    eigenRotToEigenVector3dAngleAxis sq at2 mat3Id = vec3Zero := by
  unfold eigenRotToEigenVector3dAngleAxis quatFromRotation angleAxisFromQuat
    mat3Id vec3Zero vecScale
  by_cases h : sq 0 = 0 <;> norm_num [h]

/-! ## The relative-motion derivation inside `estimateHandEye`

`estimateHandEye` (lines 171–236) declares local `firstEEInverse`,
`firstCamInverse`, the four motion buffers and a local `firstTransform`
flag — shadowing the eponymous globals — and then runs the accumulation
loop over the two input pose vectors in lockstep. -/

/-- The local state of `estimateHandEye`'s accumulation loop.  The two
inverse fields are default-constructed in the source (indeterminate until the
first iteration assigns them); the model seeds them with the identity, which
no theorem relies on. -/
structure DeriveState where
  firstTransform : Bool
  firstEEInverse : Affine3
  firstCamInverse : Affine3
  rvecsArm : List Vec3
  tvecsArm : List Vec3
  rvecsFiducial : List Vec3
  tvecsFiducial : List Vec3
deriving DecidableEq

def deriveInit : DeriveState := ⟨true, idAffine, idAffine, [], [], [], []⟩

/-- One iteration of the loop body of `estimateHandEye` on the pose pair
`p = (eigenEE, eigenCam)`: the first iteration records the two inverses and
clears the flag; every later iteration forms the motions relative to the
first pair and appends their axis-angle vector and translation to the four
buffers. -/
def deriveStep (sq : ℚ → ℚ) (at2 : ℚ → ℚ → ℚ)
    (s : DeriveState) (p : Affine3 × Affine3) : DeriveState :=
  if s.firstTransform then
    { s with
      firstEEInverse := affineInv p.1
      firstCamInverse := affineInv p.2
      firstTransform := false }
  else
    let robotTipinFirstTipBase := affineMul s.firstEEInverse p.1
    let fiducialInFirstFiducialBase := affineMul s.firstCamInverse p.2
    { s with
      rvecsArm := s.rvecsArm ++
        [eigenRotToEigenVector3dAngleAxis sq at2 (rotation robotTipinFirstTipBase)]
      tvecsArm := s.tvecsArm ++ [translationOf robotTipinFirstTipBase]
      rvecsFiducial := s.rvecsFiducial ++
        [eigenRotToEigenVector3dAngleAxis sq at2 (rotation fiducialInFirstFiducialBase)]
      tvecsFiducial := s.tvecsFiducial ++ [translationOf fiducialInFirstFiducialBase] }

/-- The whole accumulation loop of `estimateHandEye`: fold the loop body over
the two pose vectors traversed in lockstep (the loop count is
`baseToTip.size()` with both iterators advanced together; `zip` is that
traversal for sequences of equal length). -/
def deriveAll (sq : ℚ → ℚ) (at2 : ℚ → ℚ → ℚ)
    (baseToTip camToTag : List Affine3) : DeriveState :=
  (baseToTip.zip camToTag).foldl (deriveStep sq at2) deriveInit

/-- Axis-angle vector of the motion of `cur` relative to `first`, as the loop
computes it: `first⁻¹ * cur`, rotation part, converted to angle·axis. -/
def relRotOf (sq : ℚ → ℚ) (at2 : ℚ → ℚ → ℚ) (first cur : Affine3) : Vec3 :=
  eigenRotToEigenVector3dAngleAxis sq at2 (rotation (affineMul (affineInv first) cur))

/-- Translation of the motion of `cur` relative to `first`. -/
def relTransOf (first cur : Affine3) : Vec3 :=
  translationOf (affineMul (affineInv first) cur)

/-- Folding the loop body from a state whose `firstTransform` flag is already
clear appends one entry per pair to each buffer and leaves the flag and the
two reference inverses untouched. -/
theorem foldl_deriveStep_false (sq : ℚ → ℚ) (at2 : ℚ → ℚ → ℚ) :
    ∀ (l : List (Affine3 × Affine3)) (s : DeriveState),
      s.firstTransform = false →
      l.foldl (deriveStep sq at2) s =
        { s with
          rvecsArm := s.rvecsArm ++ l.map (fun p =>
            eigenRotToEigenVector3dAngleAxis sq at2
              (rotation (affineMul s.firstEEInverse p.1)))
          tvecsArm := s.tvecsArm ++ l.map (fun p =>
            translationOf (affineMul s.firstEEInverse p.1))
          rvecsFiducial := s.rvecsFiducial ++ l.map (fun p =>
            eigenRotToEigenVector3dAngleAxis sq at2
              (rotation (affineMul s.firstCamInverse p.2)))
          tvecsFiducial := s.tvecsFiducial ++ l.map (fun p =>
            translationOf (affineMul s.firstCamInverse p.2)) }
  | [], s, h => by simp
  | p :: l, s, h => by
    have hstep : deriveStep sq at2 s p =
        { s with
          rvecsArm := s.rvecsArm ++
            [eigenRotToEigenVector3dAngleAxis sq at2
              (rotation (affineMul s.firstEEInverse p.1))]
          tvecsArm := s.tvecsArm ++ [translationOf (affineMul s.firstEEInverse p.1)]
          rvecsFiducial := s.rvecsFiducial ++
            [eigenRotToEigenVector3dAngleAxis sq at2
              (rotation (affineMul s.firstCamInverse p.2))]
          tvecsFiducial := s.tvecsFiducial ++
            [translationOf (affineMul s.firstCamInverse p.2)] } := by
      simp [deriveStep, h]
    rw [List.foldl_cons, hstep,
      foldl_deriveStep_false sq at2 l _ (by simp [h])]
    simp [List.append_assoc]

/-- Claim C1: for a non-empty sequence of `N` pose pairs (the two streams have
equal length, as pairs do), the accumulation loop of `estimateHandEye`
produces exactly `N-1` entries in each of the four relative-motion buffers,
and the first entry is the motion of pair 1 relative to pair 0:
`poseA[0]⁻¹ * poseA[1]` and `poseB[0]⁻¹ * poseB[1]`, as axis-angle vector
plus translation. -/
theorem deriveAll_length_and_first (sq : ℚ → ℚ) (at2 : ℚ → ℚ → ℚ)
    (t1 t2 : List Affine3) (hlen : t1.length = t2.length) (hne : t1 ≠ []) :
    (deriveAll sq at2 t1 t2).rvecsArm.length = t1.length - 1 ∧
    (deriveAll sq at2 t1 t2).tvecsArm.length = t1.length - 1 ∧
    (deriveAll sq at2 t1 t2).rvecsFiducial.length = t1.length - 1 ∧
    (deriveAll sq at2 t1 t2).tvecsFiducial.length = t1.length - 1 ∧
    (deriveAll sq at2 t1 t2).rvecsArm.head? =
      (t1[0]?.bind fun a0 => t1[1]?.map fun a1 => relRotOf sq at2 a0 a1) ∧
    (deriveAll sq at2 t1 t2).tvecsArm.head? =
      (t1[0]?.bind fun a0 => t1[1]?.map fun a1 => relTransOf a0 a1) ∧
    (deriveAll sq at2 t1 t2).rvecsFiducial.head? =
      (t2[0]?.bind fun b0 => t2[1]?.map fun b1 => relRotOf sq at2 b0 b1) ∧
    (deriveAll sq at2 t1 t2).tvecsFiducial.head? =
      (t2[0]?.bind fun b0 => t2[1]?.map fun b1 => relTransOf b0 b1) := by
  match t1, t2 with
  | [], _ => exact absurd rfl hne
  | a0 :: as, [] => simp at hlen
  | a0 :: as, b0 :: bs =>
    have hlen' : as.length = bs.length := by simpa using hlen
    have hfirst : deriveStep sq at2 deriveInit (a0, b0) =
        ⟨false, affineInv a0, affineInv b0, [], [], [], []⟩ := by
      simp [deriveStep, deriveInit]
    have hfold := foldl_deriveStep_false sq at2 (as.zip bs)
      ⟨false, affineInv a0, affineInv b0, [], [], [], []⟩ rfl
    have hres : deriveAll sq at2 (a0 :: as) (b0 :: bs) =
        { firstTransform := false
          firstEEInverse := affineInv a0
          firstCamInverse := affineInv b0
          rvecsArm := (as.zip bs).map (fun p =>
            eigenRotToEigenVector3dAngleAxis sq at2
              (rotation (affineMul (affineInv a0) p.1)))
          tvecsArm := (as.zip bs).map (fun p =>
            translationOf (affineMul (affineInv a0) p.1))
          rvecsFiducial := (as.zip bs).map (fun p =>
            eigenRotToEigenVector3dAngleAxis sq at2
              (rotation (affineMul (affineInv b0) p.2)))
          tvecsFiducial := (as.zip bs).map (fun p =>
            translationOf (affineMul (affineInv b0) p.2)) } := by
      unfold deriveAll
      rw [List.zip_cons_cons, List.foldl_cons, hfirst, hfold]
      rfl
    have hziplen : (as.zip bs).length = as.length := by
      simp [List.length_zip, hlen']
    refine ⟨?_, ?_, ?_, ?_, ?_, ?_, ?_, ?_⟩ <;>
      rw [hres] <;>
      match as, bs with
      | [], [] => simp
      | [], _ :: _ => simp at hlen'
      | _ :: _, [] => simp at hlen'
      | a1 :: as', b1 :: bs' =>
        simp [List.length_zip, hlen', relRotOf, relTransOf] at hziplen ⊢ <;>
          omega

/-! ## Concrete sample data for witnesses -/

/-- Trivial square-root oracle used to instantiate theorems at concrete data. -/
def sqZero : ℚ → ℚ := fun _ => 0

/-- Trivial arctangent oracle used to instantiate theorems at concrete data. -/
def atan2Zero : ℚ → ℚ → ℚ := fun _ _ => 0

/-- Rotation by a quarter turn about the z axis. -/
def sampleRot : Mat3 := ⟨0, -1, 0, 1, 0, 0, 0, 0, 1⟩

def sampleA0 : Affine3 := ⟨mat3Id, ⟨1, 2, 3⟩, 0, 0, 0, 1⟩

def sampleA1 : Affine3 := ⟨sampleRot, ⟨4, 5, 6⟩, 0, 0, 0, 1⟩

def sampleB0 : Affine3 := ⟨mat3Id, ⟨-1, 0, 2⟩, 0, 0, 0, 1⟩

def sampleB1 : Affine3 := ⟨sampleRot, ⟨0, 1, 0⟩, 0, 0, 0, 1⟩

/-- Witness for C1: both hypotheses hold at a concrete two-pair capture
sequence, where the loop leaves exactly one relative-motion entry. -/
theorem deriveAll_length_and_first_witness :
    ([sampleA0, sampleA1] : List Affine3).length =
      ([sampleB0, sampleB1] : List Affine3).length ∧
    ([sampleA0, sampleA1] : List Affine3) ≠ [] ∧
    (deriveAll sqZero atan2Zero [sampleA0, sampleA1] [sampleB0, sampleB1]).rvecsArm.length =
      ([sampleA0, sampleA1] : List Affine3).length - 1 :=
  ⟨by decide, by decide,
    (deriveAll_length_and_first sqZero atan2Zero [sampleA0, sampleA1]
      [sampleB0, sampleB1] (by decide) (by decide)).1⟩

/-! ## The node's global mutable state and the keyboard-driven branches of `main` -/

/-- The process-wide mutable globals of the node (lines 20–27): the
first-capture flag, the two reference inverses (default-constructed in the
source, seeded with the identity here), the two absolute-pose buffers and the
four relative-motion buffers. -/
structure NodeState where
  firstTransform : Bool
  firstEEInverse : Affine3
  firstCamInverse : Affine3
  baseToTip : List Affine3
  cameraToTag : List Affine3
  rvecsArm : List Vec3
  tvecsArm : List Vec3
  rvecsFiducial : List Vec3
  tvecsFiducial : List Vec3
deriving DecidableEq

/-- The globals at program start: `firstTransform = true`, all buffers empty. -/
def initState : NodeState := ⟨true, idAffine, idAffine, [], [], [], [], [], []⟩

/-- `addFrame` (lines 297–394).  The two transform lookups are modelled by
`Option Affine3` arguments (`none` = `waitForTransform` timed out).  When both
lookups succeed the pair is appended to the two absolute-pose buffers and then
either the reference inverses are recorded (first capture) or the relative
motion against the recorded reference is appended to the four motion buffers.
When either lookup fails, only a warning is emitted (`true` in the returned
flag) and the state is returned untouched. -/
def addFrame (sq : ℚ → ℚ) (at2 : ℚ → ℚ → ℚ)
    (camTransform eeTransform : Option Affine3) (s : NodeState) :
    NodeState × Bool :=
  match eeTransform, camTransform with
  | some eigenEE, some eigenCam =>
    let s :=
      { s with
        baseToTip := s.baseToTip ++ [eigenEE]
        cameraToTag := s.cameraToTag ++ [eigenCam] }
    if s.firstTransform then
      ({ s with
          firstEEInverse := affineInv eigenEE
          firstCamInverse := affineInv eigenCam
          firstTransform := false }, false)
    else
      let robotTipinFirstTipBase := affineMul s.firstEEInverse eigenEE
      let fiducialInFirstFiducialBase := affineMul s.firstCamInverse eigenCam
      ({ s with
          rvecsArm := s.rvecsArm ++
            [eigenRotToEigenVector3dAngleAxis sq at2 (rotation robotTipinFirstTipBase)]
          tvecsArm := s.tvecsArm ++ [translationOf robotTipinFirstTipBase]
          rvecsFiducial := s.rvecsFiducial ++
            [eigenRotToEigenVector3dAngleAxis sq at2 (rotation fiducialInFirstFiducialBase)]
          tvecsFiducial := s.tvecsFiducial ++
            [translationOf fiducialInFirstFiducialBase] }, false)
  | _, _ => (s, true)

/-- `std::vector::pop_back`: drops the last element; calling it on an empty
vector is undefined behaviour, modelled as `none`. -/
def popBack {α : Type} (l : List α) : Option (List α) :=
  if l.isEmpty then none else some l.dropLast

/-- The `'d'` branch of `main` (lines 453–464): after reporting, it pops the
last element of all six buffers, unconditionally.  `none` means at least one
`pop_back` ran on an empty vector (undefined behaviour). -/
def undoStep (s : NodeState) : Option NodeState := do
  let rvecsArm ← popBack s.rvecsArm
  let tvecsArm ← popBack s.tvecsArm
  let rvecsFiducial ← popBack s.rvecsFiducial
  let tvecsFiducial ← popBack s.tvecsFiducial
  let baseToTip ← popBack s.baseToTip
  let cameraToTag ← popBack s.cameraToTag
  pure { s with
    rvecsArm := rvecsArm
    tvecsArm := tvecsArm
    rvecsFiducial := rvecsFiducial
    tvecsFiducial := tvecsFiducial
    baseToTip := baseToTip
    cameraToTag := cameraToTag }

/-- The `'d'` branch with the undefined `pop_back`-on-empty resolved benignly
(an empty vector stays empty), the defined fragment used to exhibit the
store's behaviour past the underflow. -/
def undoStepTrunc (s : NodeState) : NodeState :=
  { s with
    rvecsArm := s.rvecsArm.dropLast
    tvecsArm := s.tvecsArm.dropLast
    rvecsFiducial := s.rvecsFiducial.dropLast
    tvecsFiducial := s.tvecsFiducial.dropLast
    baseToTip := s.baseToTip.dropLast
    cameraToTag := s.cameraToTag.dropLast }

/-- Outcome of the `'q'` branch of `main`: whether the below-threshold warning
was printed, and the four buffers handed to
`camodocal::HandEyeCalibration::estimateHandEyeScrew` (`some` because the call
is always reached). -/
structure FinalizeOut where
  warned : Bool
  estimatorArgs : Option (List Vec3 × List Vec3 × List Vec3 × List Vec3)
deriving DecidableEq

/-- The `'q'` branch (lines 465–486): if fewer than 5 relative motions were
accumulated it prints a warning — and then falls through to the estimator
call on the current buffers in every case. -/
def finalizeStep (s : NodeState) : FinalizeOut :=
  let warned := decide (s.rvecsArm.length < 5)
  { warned := warned
    estimatorArgs := some (s.rvecsArm, s.tvecsArm, s.rvecsFiducial, s.tvecsFiducial) }

/-- The derivation part of `estimateHandEye`, exhibited as a function of the
ambient globals: lines 179–183 declare fresh local `firstEEInverse`,
`firstCamInverse`, motion buffers and `firstTransform` that shadow the
globals, so the body never reads the ambient state. -/
def estimateHandEyeDerivation (sq : ℚ → ℚ) (at2 : ℚ → ℚ → ℚ)
    (_globals : NodeState) (baseToTip camToTag : List Affine3) : DeriveState :=
  deriveAll sq at2 baseToTip camToTag

/-- Claim C8: the relative-motion derivation in `estimateHandEye` is
deterministic and pure — its result does not depend on the ambient global
state, so two runs on the identical input sequences (under arbitrary, possibly
different, global states) yield identical output sequences. -/
theorem derivation_pure_of_globals (sq : ℚ → ℚ) (at2 : ℚ → ℚ → ℚ)
    (g g' : NodeState) (t1 t2 : List Affine3) :
    estimateHandEyeDerivation sq at2 g t1 t2 =
      estimateHandEyeDerivation sq at2 g' t1 t2 := rfl

/-- Claim C2: when finalize is requested with fewer than 5 relative motions
the `'q'` branch surfaces a warning but does not block — the estimator is
still handed exactly the accumulated buffers (possibly empty). -/
theorem finalize_warns_but_estimates (s : NodeState)
    (h : s.rvecsArm.length < 5) :
    (finalizeStep s).warned = true ∧
    (finalizeStep s).estimatorArgs =
      some (s.rvecsArm, s.tvecsArm, s.rvecsFiducial, s.tvecsFiducial) := by
  refine ⟨?_, rfl⟩
  simp [finalizeStep, h]

/-- Witness for C2: the freshly started node has zero relative motions, the
warning fires, and the estimator is still invoked on the four empty buffers. -/
theorem finalize_warns_but_estimates_witness :
    (finalizeStep initState).warned = true ∧
    (finalizeStep initState).estimatorArgs = some ([], [], [], []) :=
  finalize_warns_but_estimates initState (by decide)

/-- Claim C3 (the code contradicts it): on the empty store the `'d'` branch is
not a safe no-op — it runs `std::vector::pop_back` on empty vectors, which is
undefined behaviour (`none` in the model), where the spec requires a reported,
non-fatal no-op that leaves every buffer unchanged. -/
theorem undo_on_empty_store_underflows : undoStep initState = none := rfl

/-- Claim C4: if either of the two transform lookups in `addFrame` times out,
the capture event is dropped atomically — a warning is surfaced and the whole
global state (absolute-pose buffers, relative-motion buffers and reference
fields alike) is returned unmodified. -/
theorem addFrame_timeout_drops_capture (sq : ℚ → ℚ) (at2 : ℚ → ℚ → ℚ)
    (camTransform eeTransform : Option Affine3) (s : NodeState)
    (h : camTransform = none ∨ eeTransform = none) :
    addFrame sq at2 camTransform eeTransform s = (s, true) := by
  rcases h with h | h <;> subst h
  · cases eeTransform <;> rfl
  · cases camTransform <;> rfl

/-- Witness for C4: a concrete capture event in which the camera lookup timed
out leaves the start state untouched and warns. -/
theorem addFrame_timeout_drops_capture_witness :
    ((none : Option Affine3) = none ∨ (some sampleA0 : Option Affine3) = none) ∧
    addFrame sqZero atan2Zero none (some sampleA0) initState = (initState, true) :=
  ⟨Or.inl rfl,
    addFrame_timeout_drops_capture sqZero atan2Zero none (some sampleA0)
      initState (Or.inl rfl)⟩

/-- Claim C9: undo does not restore the calibration reference.  After one
capture followed by undo of that pair, `firstTransform` stays `false` and the
stored reference inverses keep the values from the removed capture, so the
next capture is still computed relative to the removed pair; the `'d'` branch
moreover pops the relative-motion vectors even though the first capture never
pushed to them (an empty-vector `pop_back`, `none` in the strict model), and
past it the absolute-pose and relative-motion buffer sizes diverge from the
`N` / `N-1` invariant: one stored pair but one relative motion. -/
theorem undo_keeps_stale_reference (sq : ℚ → ℚ) (at2 : ℚ → ℚ → ℚ)
    (pEE pCam p2EE p2Cam : Affine3) :
    (undoStepTrunc (addFrame sq at2 (some pCam) (some pEE) initState).1).firstTransform
        = false ∧
    (undoStepTrunc (addFrame sq at2 (some pCam) (some pEE) initState).1).firstEEInverse
        = affineInv pEE ∧
    (undoStepTrunc (addFrame sq at2 (some pCam) (some pEE) initState).1).firstCamInverse
        = affineInv pCam ∧
    undoStep (addFrame sq at2 (some pCam) (some pEE) initState).1 = none ∧
    (addFrame sq at2 (some p2Cam) (some p2EE)
        (undoStepTrunc (addFrame sq at2 (some pCam) (some pEE) initState).1)).1.rvecsArm
      = [eigenRotToEigenVector3dAngleAxis sq at2
          (rotation (affineMul (affineInv pEE) p2EE))] ∧
    (addFrame sq at2 (some p2Cam) (some p2EE)
        (undoStepTrunc (addFrame sq at2 (some pCam) (some pEE) initState).1)).1.baseToTip.length
      = 1 ∧
    (addFrame sq at2 (some p2Cam) (some p2EE)
        (undoStepTrunc (addFrame sq at2 (some pCam) (some pEE) initState).1)).1.rvecsArm.length
      ≠
    (addFrame sq at2 (some p2Cam) (some p2EE)
        (undoStepTrunc (addFrame sq at2 (some pCam) (some pEE) initState).1)).1.baseToTip.length
      - 1 :=
  ⟨rfl, rfl, rfl, rfl, rfl, rfl, by show (1 : Nat) ≠ 1 - 1; decide⟩

/-! ## The persisted pose-pair file
(`writeTransformPairsToFile` / `readTransformPairsFromFile`)

A `cv::FileStorage` document is modelled as an association list from a key
type to a value type; `fs << k << v` appends, `fs[k]` is the first entry with
that key. -/

/-- Keys of the pose-pair file: `frameCount`, and `T1_i` / `T2_i` per frame. -/
inductive FileKey
  | frameCount
  | T1 (i : Nat)
  | T2 (i : Nat)
deriving DecidableEq

/-- Values stored in the pose-pair file: an integer or a 4×4 double matrix
(16 entries, carried by the same record as `Affine3d::matrix()`). -/
inductive FSValue
  | int (n : Int)
  | mat4 (m : Affine3)
deriving DecidableEq

def FileKV : Type := List (FileKey × FSValue)

/-- First-match key lookup in an association list (`fs[key]`). -/
def kvLookup {κ α : Type} [DecidableEq κ] (l : List (κ × α)) (k : κ) :
    Option α :=
  match l with
  | [] => none
  | e :: rest => if e.1 = k then some e.2 else kvLookup rest k

/-- The body of the write loop of `writeTransformPairsToFile`: starting at
frame index `i`, emit `T1_i` then `T2_i` for each pose pair. -/
def pairEntries : Nat → List (Affine3 × Affine3) → List (FileKey × FSValue)
  | _, [] => []
  | i, p :: ps =>
    (FileKey.T1 i, FSValue.mat4 p.1) :: (FileKey.T2 i, FSValue.mat4 p.2) ::
      pairEntries (i + 1) ps

/-- `writeTransformPairsToFile` (lines 37–74), successful-open case: write
`frameCount = t1.size()` and then, for `i < t1.size()` with both iterators
advanced in lockstep, the matrices `T1_i` and `T2_i`. -/
def writeTransformPairsToFile (t1 t2 : List Affine3) : FileKV :=
  (FileKey.frameCount, FSValue.int t1.length) :: pairEntries 0 (t1.zip t2)

/-- Reading one 4×4 matrix node: a missing or non-matrix node leaves the
`cv::Mat` empty and the subsequent `cv2eigen` into a fixed 4×4 matrix fails
its dimension assertion (modelled `none`). -/
def readMat (f : FileKV) (k : FileKey) : Option Affine3 :=
  match kvLookup f k with
  | some (FSValue.mat4 m) => some m
  | _ => none

/-- `fs["frameCount"] >> frameCount`: an absent node reads as `0`. -/
def readFrameCount (f : FileKV) : Int :=
  match kvLookup f FileKey.frameCount with
  | some (FSValue.int n) => n
  | _ => 0

/-- The read loop of `readTransformPairsFromFile`: `n` remaining frames
starting at index `i`, each appended (`std::back_inserter`) to the two
accumulating vectors. -/
def readPairsAux (f : FileKV) :
    Nat → Nat → List Affine3 → List Affine3 →
      Option (List Affine3 × List Affine3)
  | _, 0, t1, t2 => some (t1, t2)
  | i, n + 1, t1, t2 => do
    let m1 ← readMat f (FileKey.T1 i)
    let m2 ← readMat f (FileKey.T2 i)
    readPairsAux f (i + 1) n (t1 ++ [m1]) (t2 ++ [m2])

/-- `readTransformPairsFromFile` (lines 77–122).  The file argument is `none`
when the storage failed to open: the loop is skipped and the function returns
code `1` with `t1`, `t2` untouched (the preceding `frameCount` read yields `0`
on the unopened storage).  On an opened file it runs the read loop for
`frameCount` frames (negative counts run zero iterations) and returns code
`0`; an unreadable matrix node aborts (outer `none`). -/
def readTransformPairsFromFile (fs : Option FileKV) (t1 t2 : List Affine3) :
    Option (Int × List Affine3 × List Affine3) :=
  match fs with
  | some f =>
    match readPairsAux f 0 (readFrameCount f).toNat t1 t2 with
    | some (u1, u2) => some (0, u1, u2)
    | none => none
  | none => some (1, t1, t2)

/-- Looking up `T1_(j+k)` among the entries the write loop emitted from index
`j` finds the first stream's matrix of pair `k`. -/
theorem kvLookup_pairEntries_T1 :
    ∀ (ps : List (Affine3 × Affine3)) (j k : Nat) (hk : k < ps.length),
      kvLookup (pairEntries j ps) (FileKey.T1 (j + k)) =
        some (FSValue.mat4 (ps.get ⟨k, hk⟩).1)
  | [], _, k, hk => absurd hk (by simp)
  | p :: ps, j, 0, _ => by simp [pairEntries, kvLookup]
  | p :: ps, j, k + 1, hk => by
    have h1 : ¬(FileKey.T1 j = FileKey.T1 (j + (k + 1))) := by
      intro hcontr
      injection hcontr with hj
      omega
    have h2 : ¬(FileKey.T2 j = FileKey.T1 (j + (k + 1))) := by
      intro hcontr
      exact FileKey.noConfusion hcontr
    have hrec := kvLookup_pairEntries_T1 ps (j + 1) k (by simpa using hk)
    rw [show j + (k + 1) = j + 1 + k by omega] at h1 ⊢
    simpa [pairEntries, kvLookup, h1, h2] using hrec

/-- Looking up `T2_(j+k)` among the entries the write loop emitted from index
`j` finds the second stream's matrix of pair `k`. -/
theorem kvLookup_pairEntries_T2 :
    ∀ (ps : List (Affine3 × Affine3)) (j k : Nat) (hk : k < ps.length),
      kvLookup (pairEntries j ps) (FileKey.T2 (j + k)) =
        some (FSValue.mat4 (ps.get ⟨k, hk⟩).2)
  | [], _, k, hk => absurd hk (by simp)
  | p :: ps, j, 0, _ => by simp [pairEntries, kvLookup]
  | p :: ps, j, k + 1, hk => by
    have h1 : ¬(FileKey.T1 j = FileKey.T2 (j + (k + 1))) := by
      intro hcontr
      exact FileKey.noConfusion hcontr
    have h2 : ¬(FileKey.T2 j = FileKey.T2 (j + (k + 1))) := by
      intro hcontr
      injection hcontr with hj
      omega
    have hrec := kvLookup_pairEntries_T2 ps (j + 1) k (by simpa using hk)
    rw [show j + (k + 1) = j + 1 + k by omega] at h2 ⊢
    simpa [pairEntries, kvLookup, h1, h2] using hrec

/-- If every frame the loop will visit has readable matrix nodes, the read
loop appends exactly those matrices, in order, to its accumulators. -/
theorem readPairsAux_reads (f : FileKV) :
    ∀ (ps : List (Affine3 × Affine3)) (j : Nat) (t1 t2 : List Affine3),
      (∀ (k : Nat) (hk : k < ps.length),
        readMat f (FileKey.T1 (j + k)) = some (ps.get ⟨k, hk⟩).1 ∧
        readMat f (FileKey.T2 (j + k)) = some (ps.get ⟨k, hk⟩).2) →
      readPairsAux f j ps.length t1 t2 =
        some (t1 ++ ps.map Prod.fst, t2 ++ ps.map Prod.snd)
  | [], j, t1, t2, _ => by simp [readPairsAux]
  | p :: ps, j, t1, t2, h => by
    have h0 := h 0 (by simp)
    rw [Nat.add_zero] at h0
    have h01 : readMat f (FileKey.T1 j) = some p.1 := h0.1
    have h02 : readMat f (FileKey.T2 j) = some p.2 := h0.2
    have hrec := readPairsAux_reads f ps (j + 1) (t1 ++ [p.1]) (t2 ++ [p.2])
      (fun k hk => by
        have hk1 := h (k + 1) (by simpa using hk)
        rw [show j + (k + 1) = j + 1 + k by omega] at hk1
        simpa using hk1)
    simp only [List.length_cons, readPairsAux, h01, h02]
    show readPairsAux f (j + 1) ps.length (t1 ++ [p.1]) (t2 ++ [p.2]) =
      some (t1 ++ (p :: ps).map Prod.fst, t2 ++ (p :: ps).map Prod.snd)
    rw [hrec]
    simp

/-- Claim C6: writing a pose-pair sequence with `writeTransformPairsToFile`
and reading the resulting file back with `readTransformPairsFromFile`
reproduces the same number of pairs and every 4×4 matrix exactly (the model is
exact-rational, so equality holds outright, a fortiori within the 1e-9
tolerance). -/
theorem transformPairs_roundtrip (t1 t2 : List Affine3)
    (hlen : t1.length = t2.length) :
    readTransformPairsFromFile (some (writeTransformPairsToFile t1 t2)) [] [] =
      some (0, t1, t2) := by
  have hziplen : (t1.zip t2).length = t1.length := by
    simp [List.length_zip, hlen]
  have hcount : readFrameCount (writeTransformPairsToFile t1 t2) =
      (t1.length : Int) := by
    simp [readFrameCount, writeTransformPairsToFile, kvLookup]
  have hreadT1 : ∀ (k : Nat) (hk : k < (t1.zip t2).length),
      readMat (writeTransformPairsToFile t1 t2) (FileKey.T1 (0 + k)) =
        some ((t1.zip t2).get ⟨k, hk⟩).1 ∧
      readMat (writeTransformPairsToFile t1 t2) (FileKey.T2 (0 + k)) =
        some ((t1.zip t2).get ⟨k, hk⟩).2 := by
    intro k hk
    constructor
    · have := kvLookup_pairEntries_T1 (t1.zip t2) 0 k hk
      simp only [Nat.zero_add] at this ⊢
      simp [readMat, writeTransformPairsToFile, kvLookup, this]
    · have := kvLookup_pairEntries_T2 (t1.zip t2) 0 k hk
      simp only [Nat.zero_add] at this ⊢
      simp [readMat, writeTransformPairsToFile, kvLookup, this]
  have hloop := readPairsAux_reads (writeTransformPairsToFile t1 t2)
    (t1.zip t2) 0 [] [] hreadT1
  rw [hziplen] at hloop
  have hfst : (t1.zip t2).map Prod.fst = t1 :=
    List.map_fst_zip t1 t2 (le_of_eq hlen)
  have hsnd : (t1.zip t2).map Prod.snd = t2 :=
    List.map_snd_zip t1 t2 (le_of_eq hlen.symm)
  simp [readTransformPairsFromFile, hcount, hloop, hfst, hsnd]

/-- Witness for C6: a concrete one-pair sequence round-trips exactly. -/
theorem transformPairs_roundtrip_witness :
    ([sampleA0] : List Affine3).length = ([sampleB0] : List Affine3).length ∧
    readTransformPairsFromFile
        (some (writeTransformPairsToFile [sampleA0] [sampleB0])) [] [] =
      some (0, [sampleA0], [sampleB0]) :=
  ⟨by decide, transformPairs_roundtrip [sampleA0] [sampleB0] (by decide)⟩

/-- The read loop's accumulators are pure prefixes: reading into non-empty
vectors yields the same loaded pairs, appended after the existing elements. -/
theorem readPairsAux_accum (f : FileKV) :
    ∀ (n i : Nat) (t1 t2 : List Affine3),
      readPairsAux f i n t1 t2 =
        (readPairsAux f i n [] []).map (fun r => (t1 ++ r.1, t2 ++ r.2))
  | 0, i, t1, t2 => by simp [readPairsAux]
  | n + 1, i, t1, t2 => by
    simp only [readPairsAux]
    cases hm1 : readMat f (FileKey.T1 i) with
    | none => rfl
    | some m1 =>
      cases hm2 : readMat f (FileKey.T2 i) with
      | none => rfl
      | some m2 =>
        show readPairsAux f (i + 1) n (t1 ++ [m1]) (t2 ++ [m2]) =
          (readPairsAux f (i + 1) n ([] ++ [m1]) ([] ++ [m2])).map
            (fun r => (t1 ++ r.1, t2 ++ r.2))
        rw [readPairsAux_accum f n (i + 1) (t1 ++ [m1]) (t2 ++ [m2]),
          readPairsAux_accum f n (i + 1) ([] ++ [m1]) ([] ++ [m2])]
        cases readPairsAux f (i + 1) n [] [] <;> simp

/-- A successful run of the read loop grows each accumulator by exactly the
number of frames it visited. -/
theorem readPairsAux_length (f : FileKV) :
    ∀ (n i : Nat) (t1 t2 u1 u2 : List Affine3),
      readPairsAux f i n t1 t2 = some (u1, u2) →
      u1.length = t1.length + n ∧ u2.length = t2.length + n
  | 0, i, t1, t2, u1, u2, h => by
    simp [readPairsAux] at h
    simp [← h.1, ← h.2]
  | n + 1, i, t1, t2, u1, u2, h => by
    simp only [readPairsAux] at h
    cases hm1 : readMat f (FileKey.T1 i) with
    | none => rw [hm1] at h; exact absurd h (by simp)
    | some m1 =>
      cases hm2 : readMat f (FileKey.T2 i) with
      | none => rw [hm1, hm2] at h; exact absurd h (by simp)
      | some m2 =>
        rw [hm1, hm2] at h
        have h' : readPairsAux f (i + 1) n (t1 ++ [m1]) (t2 ++ [m2]) =
            some (u1, u2) := h
        have := readPairsAux_length f n (i + 1) (t1 ++ [m1]) (t2 ++ [m2]) u1 u2 h'
        simpa [Nat.add_assoc, Nat.add_comm 1 n] using this

/-- Claim C10: `readTransformPairsFromFile` appends via back-insertion — for
any opened file whose read succeeds, pre-existing elements of the output
vectors are unchanged, the `frameCount` loaded pairs follow them, and on a
failure to open the file it returns the non-zero code `1` with `t1` and `t2`
untouched. -/
theorem read_appends_after_existing (f : FileKV) (t1 t2 : List Affine3) :
    readTransformPairsFromFile none t1 t2 = some (1, t1, t2) ∧
    (∀ (r : Int) (l1 l2 : List Affine3),
      readTransformPairsFromFile (some f) [] [] = some (r, l1, l2) →
      readTransformPairsFromFile (some f) t1 t2 = some (r, t1 ++ l1, t2 ++ l2) ∧
      l1.length = (readFrameCount f).toNat ∧
      l2.length = (readFrameCount f).toNat) := by
  refine ⟨rfl, ?_⟩
  intro r l1 l2 h
  simp only [readTransformPairsFromFile] at h ⊢
  cases haux : readPairsAux f 0 (readFrameCount f).toNat [] [] with
  | none => rw [haux] at h; exact absurd h (by simp)
  | some u =>
    obtain ⟨u1, u2⟩ := u
    rw [haux] at h
    obtain ⟨hr, h1, h2⟩ : r = 0 ∧ u1 = l1 ∧ u2 = l2 := by
      simp at h
      exact ⟨h.1.symm, h.2.1, h.2.2⟩
    have hlen := readPairsAux_length f (readFrameCount f).toNat 0 [] [] u1 u2 haux
    rw [readPairsAux_accum f (readFrameCount f).toNat 0 t1 t2, haux]
    subst hr h1 h2
    refine ⟨by simp, by simpa using hlen.1, by simpa using hlen.2⟩

/-- Witness for C10: reading a concrete one-pair file into non-empty vectors
appends the loaded pair after the existing element; the unopened-file call
returns code 1 unchanged. -/
theorem read_appends_after_existing_witness :
    readTransformPairsFromFile none [sampleA1] [sampleB1] =
      some (1, [sampleA1], [sampleB1]) ∧
    readTransformPairsFromFile
        (some (writeTransformPairsToFile [sampleA0] [sampleB0]))
        [sampleA1] [sampleB1] =
      some (0, [sampleA1] ++ [sampleA0], [sampleB1] ++ [sampleB0]) ∧
    ([sampleA0] : List Affine3).length =
      (readFrameCount (writeTransformPairsToFile [sampleA0] [sampleB0])).toNat := by
  have h := read_appends_after_existing
    (writeTransformPairsToFile [sampleA0] [sampleB0]) [sampleA1] [sampleB1]
  have h2 := h.2 0 [sampleA0] [sampleB0] (by decide)
  exact ⟨h.1, h2.1, h2.2.1⟩

/-! ## The persisted calibration-result file (`writeCalibration`) -/

/-- Keys of the calibration-result file, in the order the source writes
them. -/
inductive CalibKey
  | handToEyeTF
  | handToEyeTransform
  | initialCost
  | finalCost
  | changeCost
  | terminationType
  | numSuccessfulIteration
  | numUnsuccessfulIteration
  | numIteration
deriving DecidableEq

/-- Values of the calibration-result file: a 1×7 double matrix, a 4×4 double
matrix, a double, or an integer. -/
inductive CalibValue
  | vec7 (v : List ℚ)
  | mat4 (m : Affine3)
  | num (x : ℚ)
  | int (n : Int)
deriving DecidableEq

/-- The fields of `ceres::Solver::Summary` that `writeCalibration` consumes
(`termination_type` as its integer enumeration value). -/
structure SolverSummary where
  initial_cost : ℚ
  final_cost : ℚ
  termination_type : Int
  num_successful_steps : Int
  num_unsuccessful_steps : Int
deriving DecidableEq

/-- `writeCalibration` (lines 238–279), successful-open case: the record it
emits — the transform as the tf 7-tuple `[tx,ty,tz,qx,qy,qz,qw]` (quaternion
of the rotation part, `sq` standing for the `sqrt` inside the conversion),
the transform as a 4×4 matrix, the two costs, their difference, the
termination type, and the two step counters plus their sum. -/
def writeCalibration (sq : ℚ → ℚ) (resultAffine : Affine3)
    (summary : SolverSummary) : List (CalibKey × CalibValue) :=
  let resultQuat := quatFromRotation sq (rotation resultAffine)
  [(CalibKey.handToEyeTF, CalibValue.vec7
      [(translationOf resultAffine).x, (translationOf resultAffine).y,
       (translationOf resultAffine).z,
       resultQuat.x, resultQuat.y, resultQuat.z, resultQuat.w]),
   (CalibKey.handToEyeTransform, CalibValue.mat4 resultAffine),
   (CalibKey.initialCost, CalibValue.num summary.initial_cost),
   (CalibKey.finalCost, CalibValue.num summary.final_cost),
   (CalibKey.changeCost, CalibValue.num
      (summary.initial_cost - summary.final_cost)),
   (CalibKey.terminationType, CalibValue.int summary.termination_type),
   (CalibKey.numSuccessfulIteration, CalibValue.int summary.num_successful_steps),
   (CalibKey.numUnsuccessfulIteration, CalibValue.int summary.num_unsuccessful_steps),
   (CalibKey.numIteration, CalibValue.int
      (summary.num_unsuccessful_steps + summary.num_successful_steps))]

/-- Claim C7: `writeCalibration` writes exactly the nine schema fields, where
`handToEyeTF` is the 7-vector `[tx,ty,tz,qx,qy,qz,qw]` of the estimated
transform, `handToEyeTransform` is its 4×4 matrix, `change_cost` is
`initial_cost - final_cost`, and `num_iteration` is the sum of the successful
and unsuccessful iteration counts. -/
theorem writeCalibration_schema (sq : ℚ → ℚ) (resultAffine : Affine3)
    (summary : SolverSummary) :
    (writeCalibration sq resultAffine summary).map Prod.fst =
      [CalibKey.handToEyeTF, CalibKey.handToEyeTransform, CalibKey.initialCost,
       CalibKey.finalCost, CalibKey.changeCost, CalibKey.terminationType,
       CalibKey.numSuccessfulIteration, CalibKey.numUnsuccessfulIteration,
       CalibKey.numIteration] ∧
    kvLookup (writeCalibration sq resultAffine summary) CalibKey.handToEyeTF =
      some (CalibValue.vec7
        [(translationOf resultAffine).x, (translationOf resultAffine).y,
         (translationOf resultAffine).z,
         (quatFromRotation sq (rotation resultAffine)).x,
         (quatFromRotation sq (rotation resultAffine)).y,
         (quatFromRotation sq (rotation resultAffine)).z,
         (quatFromRotation sq (rotation resultAffine)).w]) ∧
    kvLookup (writeCalibration sq resultAffine summary)
        CalibKey.handToEyeTransform = some (CalibValue.mat4 resultAffine) ∧
    kvLookup (writeCalibration sq resultAffine summary) CalibKey.changeCost =
      some (CalibValue.num (summary.initial_cost - summary.final_cost)) ∧
    kvLookup (writeCalibration sq resultAffine summary) CalibKey.numIteration =
      some (CalibValue.int
        (summary.num_unsuccessful_steps + summary.num_successful_steps)) :=
  ⟨rfl, rfl, rfl, rfl, rfl⟩

end HandEye
